import Mathlib

/-!
Shallow embedding of the Posterio chat gateway (`src/main.py`): the JSON
repair pipeline `extract_and_fix_json` and the `/chat` handler (mode
selection, context assembly, completion-boundary error handling, and
metadata attachment).  Python's `json.loads` is modelled by an executable
recursive-descent parser `json_loads` over a JSON value type `JValue`.
-/

/-- The opening brace character. -/
def lbrace : Char := '\x7b'

/-- The closing brace character. -/
def rbrace : Char := '\x7d'

/-- JSON values as produced by Python's `json.loads`.  Integer literals
become `int`; literals with a fraction or exponent (and the extensions
`NaN`, `Infinity`, `-Infinity`) become `float`, recorded by their lexeme
so no floating-point arithmetic is modelled.  Objects keep insertion
order, as Python dicts do. -/
inductive JValue where
  | null
  | bool (b : Bool)
  | int (n : Int)
  | float (lexeme : String)
  | str (s : String)
  | arr (items : List JValue)
  | obj (fields : List (String × JValue))

/-- Whitespace accepted between JSON tokens (Python `json`: space, tab,
newline, carriage return). -/
def jsonWs (c : Char) : Bool :=
  c = ' ' || c = '\t' || c = '\n' || c = '\r'

/-- Skip JSON whitespace. -/
def skipWs (l : List Char) : List Char := l.dropWhile jsonWs

/-- Value of a hexadecimal digit, if any. -/
def hexVal (c : Char) : Option Nat :=
  if c.isDigit then some (c.toNat - 48)
  else if 'a' ≤ c && c ≤ 'f' then some (c.toNat - 87)
  else if 'A' ≤ c && c ≤ 'F' then some (c.toNat - 55)
  else none

/-- Decoding of a single-character escape sequence in a JSON string. -/
def escChar (c : Char) : Option Char :=
  if c = '"' then some '"'
  else if c = '\\' then some '\\'
  else if c = '/' then some '/'
  else if c = 'b' then some '\x08'
  else if c = 'f' then some '\x0c'
  else if c = 'n' then some '\n'
  else if c = 'r' then some '\r'
  else if c = 't' then some '\t'
  else none

/-- Parse the characters of a JSON string after the opening quote,
returning the decoded content and the input remaining after the closing
quote.  Unescaped control characters are rejected, as in Python's strict
mode. -/
def parseStringChars : List Char → Option (List Char × List Char)
  | [] => none
  | c :: rest =>
    if c = '"' then some ([], rest)
    else if c = '\\' then
      match rest with
      | 'u' :: h1 :: h2 :: h3 :: h4 :: rest2 =>
        match hexVal h1, hexVal h2, hexVal h3, hexVal h4 with
        | some a, some b, some c2, some d =>
          (parseStringChars rest2).map
            (fun p => (Char.ofNat (((a * 16 + b) * 16 + c2) * 16 + d) :: p.1, p.2))
        | _, _, _, _ => none
      | e :: rest2 =>
        match escChar e with
        | some d => (parseStringChars rest2).map (fun p => (d :: p.1, p.2))
        | none => none
      | [] => none
    else if c.toNat < 32 then none
    else (parseStringChars rest).map (fun p => (c :: p.1, p.2))

/-- Digits to a natural number. -/
def digitsToNat (l : List Char) : Nat :=
  l.foldl (fun a c => a * 10 + (c.toNat - 48)) 0

/-- Parse a JSON number starting at the head of the input.  An integer
literal yields `JValue.int`; a literal with fraction or exponent yields
`JValue.float` carrying its lexeme.  Leading zeros are rejected, matching
the grammar Python's scanner uses. -/
def parseNumber (l : List Char) : Option (JValue × List Char) :=
  let sgnSplit : List Char × List Char :=
    match l with
    | c :: rest => if c = '-' then ([c], rest) else ([], l)
    | [] => ([], l)
  let sgn := sgnSplit.1
  let l1 := sgnSplit.2
  let ip := l1.takeWhile Char.isDigit
  let r1 := l1.dropWhile Char.isDigit
  if ip.isEmpty then none
  else if ip.head? = some '0' && 1 < ip.length then none
  else
    let fracRes : Option (List Char × List Char) :=
      match r1 with
      | '.' :: r2 =>
        let fp := r2.takeWhile Char.isDigit
        if fp.isEmpty then none else some ('.' :: fp, r2.dropWhile Char.isDigit)
      | _ => some ([], r1)
    match fracRes with
    | none => none
    | some (fl, r2) =>
      let expRes : Option (List Char × List Char) :=
        match r2 with
        | e :: r3 =>
          if e = 'e' || e = 'E' then
            let sg2Split : List Char × List Char :=
              match r3 with
              | c :: r5 => if c = '+' || c = '-' then ([c], r5) else ([], r3)
              | [] => ([], r3)
            let ep := sg2Split.2.takeWhile Char.isDigit
            if ep.isEmpty then none
            else some (e :: sg2Split.1 ++ ep, sg2Split.2.dropWhile Char.isDigit)
          else some ([], r2)
        | [] => some ([], r2)
      match expRes with
      | none => none
      | some (el, r3) =>
        if fl.isEmpty && el.isEmpty then
          let n : Int := Int.ofNat (digitsToNat ip)
          some (.int (if sgn.isEmpty then n else -n), r3)
        else
          some (.float (String.mk (sgn ++ ip ++ fl ++ el)), r3)

/-- Insert a key into an ordered association list with Python dict
semantics: an existing key keeps its position and gets the new value,
a new key is appended at the end. -/
def insertKey : List (String × JValue) → String → JValue → List (String × JValue)
  | [], k, v => [(k, v)]
  | p :: rest, k, v =>
    if p.1 = k then (k, v) :: rest else p :: insertKey rest k v

/-- Parser state: parsing a single value, the members of an object after
its opening brace, or the items of an array after its opening bracket. -/
inductive PMode where
  | value
  | members (acc : List (String × JValue))
  | items (acc : List JValue)

/-- Fuel-bounded recursive-descent JSON parser, modelling Python's
`json.loads` grammar.  Returns the parsed value and the remaining input.
The fuel only bounds recursion depth; every recursive call consumes
input, so `2 * length + 4` fuel never runs out. -/
def parseCore : Nat → PMode → List Char → Option (JValue × List Char)
  | 0, _, _ => none
  | Nat.succ fuel, .value, l =>
    match l with
    | [] => none
    | c :: rest =>
      if c = lbrace then
        let r := skipWs rest
        match r with
        | d :: r2 =>
          if d = rbrace then some (.obj [], r2) else parseCore fuel (.members []) r
        | [] => none
      else if c = '[' then
        let r := skipWs rest
        match r with
        | d :: r2 =>
          if d = ']' then some (.arr [], r2) else parseCore fuel (.items []) r
        | [] => none
      else if c = '"' then
        match parseStringChars rest with
        | some (cs, r) => some (.str (String.mk cs), r)
        | none => none
      else if c = 't' then
        match rest with
        | 'r' :: 'u' :: 'e' :: r => some (.bool true, r)
        | _ => none
      else if c = 'f' then
        match rest with
        | 'a' :: 'l' :: 's' :: 'e' :: r => some (.bool false, r)
        | _ => none
      else if c = 'n' then
        match rest with
        | 'u' :: 'l' :: 'l' :: r => some (.null, r)
        | _ => none
      else if c = 'N' then
        match rest with
        | 'a' :: 'N' :: r => some (.float "NaN", r)
        | _ => none
      else if c = 'I' then
        match rest with
        | 'n' :: 'f' :: 'i' :: 'n' :: 'i' :: 't' :: 'y' :: r => some (.float "Infinity", r)
        | _ => none
      else if c = '-' then
        match rest with
        | 'I' :: 'n' :: 'f' :: 'i' :: 'n' :: 'i' :: 't' :: 'y' :: r =>
          some (.float "-Infinity", r)
        | _ => parseNumber l
      else if c.isDigit then parseNumber l
      else none
  | Nat.succ fuel, .members acc, l =>
    match l with
    | '"' :: rest =>
      match parseStringChars rest with
      | some (key, r1) =>
        match skipWs r1 with
        | ':' :: r3 =>
          match parseCore fuel .value (skipWs r3) with
          | some (v, r4) =>
            let acc2 := insertKey acc (String.mk key) v
            match skipWs r4 with
            | ',' :: r5 => parseCore fuel (.members acc2) (skipWs r5)
            | d :: r5 => if d = rbrace then some (.obj acc2, r5) else none
            | [] => none
          | none => none
        | _ => none
      | none => none
    | _ => none
  | Nat.succ fuel, .items acc, l =>
    match parseCore fuel .value l with
    | some (v, r1) =>
      let acc2 := acc ++ [v]
      match skipWs r1 with
      | ',' :: r2 => parseCore fuel (.items acc2) (skipWs r2)
      | ']' :: r2 => some (.arr acc2, r2)
      | _ => none
    | none => none

/-- Model of Python's `json.loads`: parse the whole string as one JSON
document, allowing surrounding whitespace; any leftover input is an
error (`none` models a raised `JSONDecodeError`). -/
def json_loads (s : String) : Option JValue :=
  let l := skipWs s.data
  match parseCore (2 * l.length + 4) .value l with
  | some (v, rest) => if (skipWs rest).isEmpty then some v else none
  | none => none

/-- Model of `re.search(r"\x7b.*\x7d", raw, re.DOTALL)` followed by
`.group(0)`: the substring from the first opening brace to the last
closing brace, when a closing brace occurs after the first opening
brace; `none` otherwise (main.py line 82). -/
def extractBraces (l : List Char) : Option (List Char) :=
  let t := (((l.dropWhile (fun c => c != lbrace)).reverse.dropWhile
    (fun c => c != rbrace)).reverse)
  if t.isEmpty then none else some t

/-- Replace typographic double quotes U+201C and U+201D by straight
double quotes (main.py line 86). -/
def fixQuotes (l : List Char) : List Char :=
  l.map (fun c => if c = '“' || c = '”' then '"' else c)

/-- Characters matched by the regex class `\s` for the inputs this
pipeline sees (space, tab, newline, carriage return, vertical tab,
form feed). -/
def pySpace (c : Char) : Bool :=
  c = ' ' || c = '\t' || c = '\n' || c = '\r' || c = '\x0b' || c = '\x0c'

/-- Model of `re.sub(r",\s*X", "X", text)` for a closing character `X`:
one left-to-right pass replacing each non-overlapping match of a comma,
optional whitespace, then `X` by `X` alone (main.py lines 87 and 88).
The fuel only bounds recursion; each call consumes input, so fuel equal
to the input length never runs out. -/
def subTrailingComma : Nat → Char → List Char → List Char
  | 0, _, l => l
  | _ + 1, _, [] => []
  | fuel + 1, close, c :: rest =>
    if c = ',' then
      match rest.dropWhile pySpace with
      | x :: r2 =>
        if x = close then close :: subTrailingComma fuel close r2
        else c :: subTrailingComma fuel close rest
      | [] => c :: subTrailingComma fuel close rest
    else c :: subTrailingComma fuel close rest

/-- The normalization applied to the extracted substring: straighten
typographic quotes, then delete trailing commas before `\x7d`, then
before `]` (main.py lines 86-88). -/
def normalizeText (t : List Char) : List Char :=
  let t1 := fixQuotes t
  let t2 := subTrailingComma t1.length rbrace t1
  subTrailingComma t2.length ']' t2

/-- An error payload dict `{error, raw_output}` as built at main.py
lines 84 and 92. -/
def errPayload (msg raw : String) : JValue :=
  .obj [("error", .str msg), ("raw_output", .str raw)]

/-- Model of `extract_and_fix_json` (main.py lines 78-92): strict parse;
otherwise extract the widest brace-delimited substring, normalize it and
re-parse; on failure return a diagnostic error payload carrying the
original raw text. -/
def extract_and_fix_json (raw : String) : JValue :=
  match json_loads raw with
  | some v => v
  | none =>
    match extractBraces raw.data with
    | none => errPayload "No JSON detected" raw
    | some t =>
      match json_loads (String.mk (normalizeText t)) with
      | some v => v
      | none => errPayload "JSON parse failed" raw

/-- A chat message, as in the `Message` pydantic model and the dicts
sent to the completion API. -/
structure Message where
  role : String
  content : String

/-- The `/chat` request body (`ChatRequest` in main.py).  A missing
`force_template` defaults to `False`; `None` and `False` behave alike
in the `or`-condition, so a `Bool` field is faithful. -/
structure ChatRequest where
  session_id : String
  messages : List Message
  message : String
  force_template : Bool

/-- The result of a successful completion call: the reply text of the
first choice and the total token count (0 when absent). -/
structure RawCompletion where
  text : String
  tokens_used : Nat

/-- Does the character list `l` start with `sub`? -/
def listStartsWith : List Char → List Char → Bool
  | _, [] => true
  | [], _ :: _ => false
  | a :: as, b :: bs => a = b && listStartsWith as bs

/-- Python's `sub in s` substring test on character lists. -/
def listContainsSub (sub : List Char) : List Char → Bool
  | [] => listStartsWith [] sub
  | c :: rest => listStartsWith (c :: rest) sub || listContainsSub sub rest

/-- Python's `str.lower()`, character-wise (ASCII case is all the mode
check needs). -/
def strLower (s : String) : String := String.mk (s.data.map Char.toLower)

/-- The condition `req.force_template or "template" in req.message.lower()`
computed at main.py lines 103 and 119. -/
def isStructured (req : ChatRequest) : Bool :=
  req.force_template || listContainsSub "template".data (strLower req.message).data

/-- The two output modes of a turn. -/
inductive Mode where
  | Conversational
  | Structured
deriving DecidableEq

/-- The mode selected for a request: the branch both line 103 (prompt
choice) and line 119 (output shape) of main.py take. -/
def mode (req : ChatRequest) : Mode :=
  if isStructured req then .Structured else .Conversational

/-- The system prompt chosen at main.py line 103.  The two prompt texts
are startup-loaded configuration files outside `src/`, so they are
passed in as parameters. -/
def selectedPrompt (spConv spTmpl : String) (req : ChatRequest) : String :=
  if isStructured req then spTmpl else spConv

/-- `xs[-5:]` on a list: the last `min 5 |xs|` elements.  Line 102 of
main.py guards the empty list separately, but `[] [-5:]` is `[]` too,
so one formula covers both branches. -/
def lastN (n : Nat) (l : List α) : List α := l.drop (l.length - n)

/-- The conversation assembled at main.py lines 105-107: one system
message, the retained history re-wrapped as role/content records in
original order, then the new user message. -/
def buildConversation (sp : String) (req : ChatRequest) : List Message :=
  Message.mk "system" sp ::
    (lastN 5 req.messages).map (fun m => Message.mk m.role m.content)
    ++ [Message.mk "user" req.message]

/-- Look up a key in an ordered association list. -/
def getKey : List (String × JValue) → String → Option JValue
  | [], _ => none
  | p :: rest, k => if p.1 = k then some p.2 else getKey rest k

/-- The `TypeError` message CPython raises for `v["meta"] = x` when `v`
is not a dict. -/
def setItemMsg : JValue → String
  | .arr _ => "list indices must be integers or slices, not str"
  | .null => "\x27NoneType\x27 object does not support item assignment"
  | .bool _ => "\x27bool\x27 object does not support item assignment"
  | .int _ => "\x27int\x27 object does not support item assignment"
  | .float _ => "\x27float\x27 object does not support item assignment"
  | .str _ => "\x27str\x27 object does not support item assignment"
  | .obj _ => ""

/-- Is the value a JSON object (a Python dict)? -/
def JValue.isObj : JValue → Bool
  | .obj _ => true
  | _ => false

/-- Model of `output["meta"] = {...}` (main.py line 124): dict update on
an object, a raised `TypeError` on anything else. -/
def attachMeta : JValue → JValue → Except String JValue
  | .obj fields, meta => .ok (.obj (insertKey fields "meta" meta))
  | v, _ => .error (setItemMsg v)

/-- The degraded response built in the `except` handler (main.py
line 127). -/
def errorResponse (e : String) : JValue :=
  .obj [("reply_text", .str ("Error: " ++ e)),
        ("meta", .obj [("tokens_used", .int 0), ("model", .str "error")])]

/-- The fresh metadata attached at main.py line 124. -/
def freshMeta (tokens : Nat) : JValue :=
  .obj [("tokens_used", .int (Int.ofNat tokens)), ("model", .str "gpt-4o-mini")]

/-- Model of the `/chat` handler (main.py lines 96-127).  The external
completion boundary is a parameter taking the assembled conversation to
either a completion or a raised exception's message; any failure inside
the `try` block (the API call or the meta assignment) lands in the
`except` branch producing the degraded response. -/
def chat (spConv spTmpl : String) (req : ChatRequest)
    (complete : List Message → Except String RawCompletion) : JValue :=
  let conversation := buildConversation (selectedPrompt spConv spTmpl req) req
  match complete conversation with
  | .error e => errorResponse e
  | .ok comp =>
    let output : JValue :=
      if isStructured req then extract_and_fix_json comp.text
      else .obj [("reply_text", .str comp.text)]
    match attachMeta output (freshMeta comp.tokens_used) with
    | .ok v => v
    | .error e => errorResponse e

/-! Helper lemmas. -/

theorem getKey_insertKey (fs : List (String × JValue)) (k : String) (v : JValue) :
    getKey (insertKey fs k v) k = some v := by
  induction fs with
  | nil => simp [insertKey, getKey]
  | cons p t ih =>
    by_cases h : p.1 = k
    · simp [insertKey, h, getKey]
    · simp [insertKey, h, getKey, ih]

/-! Claim theorems. -/

/-- C6: a raw string that parses as JSON verbatim is returned exactly as
its strict parse, with no extraction or normalization applied. -/
theorem C6_strict_parse (raw : String) (v : JValue)
    (h : json_loads raw = some v) :
    extract_and_fix_json raw = v := by
  simp [extract_and_fix_json, h]

/-- Witness for C6 at the concrete valid-JSON input `{"a": 1}`. -/
theorem C6_strict_parse_witness :
    extract_and_fix_json "\x7b\"a\": 1\x7d" = JValue.obj [("a", JValue.int 1)] :=
  C6_strict_parse _ _ rfl

/-- C4: whenever the strict parse fails, a brace-delimited substring is
extracted, and the parse of its normalization also fails, the repair
returns the error payload `JSON parse failed` carrying the original raw
text, never the normalized intermediate. -/
theorem C4_parse_failed (raw : String) (t : List Char)
    (h1 : json_loads raw = none)
    (h2 : extractBraces raw.data = some t)
    (h3 : json_loads (String.mk (normalizeText t)) = none) :
    extract_and_fix_json raw =
      JValue.obj [("error", JValue.str "JSON parse failed"),
                  ("raw_output", JValue.str raw)] := by
  simp [extract_and_fix_json, h1, h2, h3, errPayload]

/-- Witness for C4 at the concrete input `a {x} b`. -/
theorem C4_parse_failed_witness :
    extract_and_fix_json "a \x7bx\x7d b" =
      JValue.obj [("error", JValue.str "JSON parse failed"),
                  ("raw_output", JValue.str "a \x7bx\x7d b")] :=
  C4_parse_failed "a \x7bx\x7d b" _ rfl rfl rfl

/-- C1: on the raw input `Here you go: {"goal": "Run 5k", "templates":
[],} thanks!` the strict parse fails, the substring from the first
opening to the last closing brace is extracted, normalization strips the
trailing comma, and the repair returns the mapping with `goal` and
`templates`, not an error payload. -/
theorem C1_repair_roundtrip :
    json_loads "Here you go: \x7b\"goal\": \"Run 5k\", \"templates\": [],\x7d thanks!" = none
    ∧ extractBraces
        ("Here you go: \x7b\"goal\": \"Run 5k\", \"templates\": [],\x7d thanks!").data
        = some ("\x7b\"goal\": \"Run 5k\", \"templates\": [],\x7d").data
    ∧ normalizeText ("\x7b\"goal\": \"Run 5k\", \"templates\": [],\x7d").data
        = ("\x7b\"goal\": \"Run 5k\", \"templates\": []\x7d").data
    ∧ extract_and_fix_json
        "Here you go: \x7b\"goal\": \"Run 5k\", \"templates\": [],\x7d thanks!"
        = JValue.obj [("goal", JValue.str "Run 5k"), ("templates", JValue.arr [])] :=
  ⟨rfl, rfl, rfl, rfl⟩

/-- C10: on the raw input `note: {"a": "b, }"}` the extracted substring
is itself valid JSON with field value `b, \x7d`, but the trailing-comma
removal rewrites inside the string literal, so the repair succeeds with
the different field value `b\x7d`: normalization is not confined to
commas outside string values. -/
theorem C10_comma_in_string :
    json_loads "note: \x7b\"a\": \"b, \x7d\"\x7d" = none
    ∧ extractBraces ("note: \x7b\"a\": \"b, \x7d\"\x7d").data
        = some ("\x7b\"a\": \"b, \x7d\"\x7d").data
    ∧ json_loads "\x7b\"a\": \"b, \x7d\"\x7d"
        = some (JValue.obj [("a", JValue.str "b, \x7d")])
    ∧ extract_and_fix_json "note: \x7b\"a\": \"b, \x7d\"\x7d"
        = JValue.obj [("a", JValue.str "b\x7d")]
    ∧ ("b\x7d" : String) ≠ "b, \x7d" :=
  ⟨rfl, rfl, rfl, rfl, by decide⟩

/-- A suffix decomposition for `dropWhile`. -/
theorem dropWhile_append (p : Char → Bool) (l : List Char) :
    ∃ a, l = a ++ l.dropWhile p := by
  induction l with
  | nil => exact ⟨[], rfl⟩
  | cons c rest ih =>
    by_cases h : p c
    · obtain ⟨a, ha⟩ := ih
      exact ⟨c :: a, by simp [List.dropWhile_cons, h, ← ha]⟩
    · exact ⟨[], by simp [List.dropWhile_cons, h]⟩

/-- The head of a nonempty `dropWhile` result falsifies the predicate. -/
theorem dropWhile_head_false (p : Char → Bool) (l : List Char) (c : Char)
    (cs : List Char) (h : l.dropWhile p = c :: cs) : p c = false := by
  induction l with
  | nil => simp at h
  | cons d rest ih =>
    by_cases hd : p d
    · exact ih (by simpa [List.dropWhile_cons, hd] using h)
    · rw [List.dropWhile_cons] at h
      simp [hd] at h
      simp [← h.1, Bool.not_eq_true] at hd ⊢
      exact hd

/-- The raw text contains a brace-delimited span: a `\x7b` followed
somewhere later by a `\x7d`. -/
def hasBraceSpan (l : List Char) : Prop :=
  ∃ pre mid post, l = pre ++ lbrace :: mid ++ rbrace :: post

/-- A successful extraction exhibits a brace-delimited span. -/
theorem extractBraces_some_span (l t : List Char)
    (h : extractBraces l = some t) : hasBraceSpan l := by
  unfold extractBraces at h
  set u := l.dropWhile (fun c => c != lbrace) with hu
  by_cases hempty :
      ((u.reverse.dropWhile (fun c => c != rbrace)).reverse).isEmpty
  · simp [hempty] at h
  · obtain ⟨a, ha⟩ := dropWhile_append (fun c => c != lbrace) l
    rw [← hu] at ha
    have hne : u.reverse.dropWhile (fun c => c != rbrace) ≠ [] := by
      intro hcon
      rw [hcon] at hempty
      simp at hempty
    obtain ⟨y, ys, hys⟩ := List.exists_cons_of_ne_nil hne
    have hy : (y != rbrace) = false :=
      dropWhile_head_false (fun c => c != rbrace) u.reverse y ys hys
    have hyeq : y = rbrace := by simpa using hy
    obtain ⟨b, hb⟩ := dropWhile_append (fun c => c != rbrace) u.reverse
    rw [hys, hyeq] at hb
    have hueq : u = ys.reverse ++ rbrace :: b.reverse := by
      have := congrArg List.reverse hb
      simpa using this
    have hune : u ≠ [] := by
      intro hcon
      rw [hcon] at hb
      simp at hb
    obtain ⟨x, xs, hxs⟩ := List.exists_cons_of_ne_nil hune
    have hx : (x != lbrace) = false :=
      dropWhile_head_false (fun c => c != lbrace) l x xs (hu ▸ hxs)
    have hxeq : x = lbrace := by simpa using hx
    rcases hys2 : ys.reverse with _ | ⟨z, zs⟩
    · rw [hys2] at hueq
      rw [hxs, hxeq] at hueq
      simp at hueq
      exact absurd (hueq.1).symm (by decide)
    · rw [hys2] at hueq
      rw [hxs, hxeq] at hueq
      have hz : z = lbrace := by
        have := congrArg (fun l => l.head?) hueq
        simpa using this.symm
      refine ⟨a, zs, b.reverse, ?_⟩
      rw [ha, hxs, hxeq, hueq, hz]
      simp

/-- C5: when the strict parse fails and the raw text contains no opening
brace followed later by a closing brace, the repair returns the error
payload `No JSON detected` carrying the original text. -/
theorem C5_no_json_detected (raw : String)
    (h1 : json_loads raw = none)
    (h2 : ¬ hasBraceSpan raw.data) :
    extract_and_fix_json raw =
      JValue.obj [("error", JValue.str "No JSON detected"),
                  ("raw_output", JValue.str raw)] := by
  rcases heb : extractBraces raw.data with _ | t
  · simp [extract_and_fix_json, h1, heb, errPayload]
  · exact absurd (extractBraces_some_span raw.data t heb) h2

/-- Witness for C5 at the concrete input `hello`. -/
theorem C5_no_json_detected_witness :
    extract_and_fix_json "hello" =
      JValue.obj [("error", JValue.str "No JSON detected"),
                  ("raw_output", JValue.str "hello")] :=
  C5_no_json_detected "hello" rfl (fun h => by
    obtain ⟨pre, mid, post, hEq⟩ := h
    have hmem : lbrace ∈ ("hello" : String).data := by
      rw [hEq]; simp
    revert hmem; decide)

/-- C8: when the completion boundary raises, the chat handler does not
propagate the fault: it returns the well-formed degraded response whose
reply text carries the exception text, with `tokens_used = 0` and
`model = "error"`. -/
theorem C8_boundary_failure (spConv spTmpl : String) (req : ChatRequest)
    (e : String) (complete : List Message → Except String RawCompletion)
    (h : complete (buildConversation (selectedPrompt spConv spTmpl req) req)
          = Except.error e) :
    chat spConv spTmpl req complete =
      JValue.obj [("reply_text", JValue.str ("Error: " ++ e)),
                  ("meta", JValue.obj [("tokens_used", JValue.int 0),
                                       ("model", JValue.str "error")])] := by
  simp [chat, h, errorResponse]

/-- Witness for C8 with a boundary that raises `boom`. -/
theorem C8_boundary_failure_witness :
    chat "c" "t" (ChatRequest.mk "s" [] "hi" false) (fun _ => Except.error "boom") =
      JValue.obj [("reply_text", JValue.str "Error: boom"),
                  ("meta", JValue.obj [("tokens_used", JValue.int 0),
                                       ("model", JValue.str "error")])] :=
  C8_boundary_failure "c" "t" (ChatRequest.mk "s" [] "hi" false) "boom" _ rfl

/-- C2: the selected mode is Structured exactly when `force_template` is
set or the lowercased message contains `template`; and a request that is
Conversational gets the raw completion text back unmodified as
`reply_text`, with the fresh metadata appended. -/
theorem C2_mode_selection (spConv spTmpl : String) (req : ChatRequest)
    (comp : RawCompletion) :
    (mode req = Mode.Structured ↔
      (req.force_template = true ∨
        listContainsSub "template".data (strLower req.message).data = true))
    ∧ (mode req = Mode.Conversational →
        chat spConv spTmpl req (fun _ => Except.ok comp) =
          JValue.obj [("reply_text", JValue.str comp.text),
                      ("meta", freshMeta comp.tokens_used)]) := by
  constructor
  · unfold mode isStructured
    rcases hf : req.force_template <;>
      rcases hc : listContainsSub "template".data (strLower req.message).data <;>
      simp [hf, hc]
  · intro h
    have hs : isStructured req = false := by
      unfold mode at h
      rcases hv : isStructured req
      · rfl
      · simp [hv] at h
    simp [chat, hs, attachMeta, insertKey]

/-- Witness for C2: a plain request with `force_template = false` and no
`template` in the message gets the raw text back unchanged. -/
theorem C2_mode_selection_witness :
    chat "c" "t" (ChatRequest.mk "s" [] "hello" false)
        (fun _ => Except.ok (RawCompletion.mk "hi there" 7)) =
      JValue.obj [("reply_text", JValue.str "hi there"),
                  ("meta", JValue.obj [("tokens_used", JValue.int 7),
                                       ("model", JValue.str "gpt-4o-mini")])] :=
  (C2_mode_selection "c" "t" (ChatRequest.mk "s" [] "hello" false)
    (RawCompletion.mk "hi there" 7)).2 rfl

/-- Re-wrapping a message as a role/content record is the identity. -/
theorem map_message_eta (l : List Message) :
    l.map (fun m => Message.mk m.role m.content) = l := by
  induction l with
  | nil => rfl
  | cons m t ih => cases m; simp [ih]

/-- C3: the assembled conversation is one system message carrying the
selected prompt, then the last `min 5 |history|` history messages in
their caller-supplied order (a suffix of the input, which is never
mutated), then one user message carrying the new message; so its length
is at most 7 and its non-system message count at most 6. -/
theorem C3_context_assembly (sp : String) (req : ChatRequest) :
    buildConversation sp req =
      Message.mk "system" sp ::
        (req.messages.drop (req.messages.length - 5)
          ++ [Message.mk "user" req.message])
    ∧ (req.messages.drop (req.messages.length - 5)).length
        = min 5 req.messages.length
    ∧ (buildConversation sp req).length ≤ 7
    ∧ ((buildConversation sp req).filter (fun m => m.role != "system")).length ≤ 6
    ∧ req.messages.drop (req.messages.length - 5) <:+ req.messages := by
  have heq : buildConversation sp req =
      Message.mk "system" sp ::
        (req.messages.drop (req.messages.length - 5)
          ++ [Message.mk "user" req.message]) := by
    unfold buildConversation lastN
    rw [map_message_eta]
    simp
  have hlen : (req.messages.drop (req.messages.length - 5)).length
      = min 5 req.messages.length := by
    rw [List.length_drop]
    omega
  refine ⟨heq, hlen, ?_, ?_, List.drop_suffix _ _⟩
  · rw [heq]
    simp only [List.length_cons, List.length_append, List.length_cons,
      List.length_nil, hlen]
    omega
  · rw [heq, List.filter_cons]
    have hfalse : ((Message.mk "system" sp).role != "system") = false := by simp
    rw [hfalse]
    simp only [Bool.false_eq_true, if_false]
    calc (List.filter (fun m => m.role != "system")
            (req.messages.drop (req.messages.length - 5)
              ++ [Message.mk "user" req.message])).length
        ≤ (req.messages.drop (req.messages.length - 5)
            ++ [Message.mk "user" req.message]).length :=
          List.length_filter_le _ _
      _ ≤ 6 := by
          simp only [List.length_append, List.length_cons, List.length_nil, hlen]
          omega

/-- Every chat response is either the degraded error response or an
object with the fresh metadata inserted as the last step. -/
theorem chat_result_cases (spConv spTmpl : String) (req : ChatRequest)
    (complete : List Message → Except String RawCompletion) :
    (∃ e, chat spConv spTmpl req complete = errorResponse e)
    ∨ (∃ fs tokens, chat spConv spTmpl req complete
        = JValue.obj (insertKey fs "meta" (freshMeta tokens))) := by
  rcases hb : complete (buildConversation (selectedPrompt spConv spTmpl req) req)
    with e | comp
  · exact Or.inl ⟨e, by simp [chat, hb]⟩
  · rcases hs : isStructured req
    · exact Or.inr ⟨[("reply_text", JValue.str comp.text)], comp.tokens_used,
        by simp [chat, hb, hs, attachMeta]⟩
    · rcases hv : extract_and_fix_json comp.text with _ | b | n | fx | s | xs | fs
      case obj =>
        exact Or.inr ⟨fs, comp.tokens_used, by simp [chat, hb, hs, hv, attachMeta]⟩
      all_goals exact Or.inl ⟨setItemMsg (extract_and_fix_json comp.text),
        by simp [chat, hb, hs, hv, attachMeta]⟩

/-- C7: every chat response, on every success and every error path, is
an object carrying a `meta` field with `tokens_used` and `model`
populated; and on the structured success path the metadata is attached
as the last step, overwriting any `meta` key the repaired object already
contained. -/
theorem C7_meta_always (spConv spTmpl : String) (req : ChatRequest)
    (complete : List Message → Except String RawCompletion) :
    (∃ fields t m, chat spConv spTmpl req complete = JValue.obj fields
      ∧ getKey fields "meta"
          = some (JValue.obj [("tokens_used", JValue.int t),
                              ("model", JValue.str m)]))
    ∧ (∀ comp,
        complete (buildConversation (selectedPrompt spConv spTmpl req) req)
          = Except.ok comp →
        isStructured req = true →
        ∀ fs, extract_and_fix_json comp.text = JValue.obj fs →
        chat spConv spTmpl req complete
          = JValue.obj (insertKey fs "meta" (freshMeta comp.tokens_used))
        ∧ getKey (insertKey fs "meta" (freshMeta comp.tokens_used)) "meta"
            = some (freshMeta comp.tokens_used)) := by
  constructor
  · rcases chat_result_cases spConv spTmpl req complete with ⟨e, he⟩ | ⟨fs, tokens, hf⟩
    · exact ⟨[("reply_text", JValue.str ("Error: " ++ e)),
        ("meta", JValue.obj [("tokens_used", JValue.int 0),
                             ("model", JValue.str "error")])],
        0, "error", he, rfl⟩
    · exact ⟨insertKey fs "meta" (freshMeta tokens), Int.ofNat tokens,
        "gpt-4o-mini", hf, by rw [getKey_insertKey]; rfl⟩
  · intro comp hb hs fs hv
    constructor
    · simp [chat, hb, hs, hv, attachMeta]
    · exact getKey_insertKey fs "meta" (freshMeta comp.tokens_used)

/-- Witness for C7: a structured completion that already carries a
`meta` key gets it overwritten by the fresh metadata. -/
theorem C7_meta_always_witness :
    chat "c" "t" (ChatRequest.mk "s" [] "x" true)
        (fun _ => Except.ok (RawCompletion.mk "\x7b\"meta\": 1\x7d" 9)) =
      JValue.obj [("meta", JValue.obj [("tokens_used", JValue.int 9),
                                       ("model", JValue.str "gpt-4o-mini")])] :=
  ((C7_meta_always "c" "t" (ChatRequest.mk "s" [] "x" true)
      (fun _ => Except.ok (RawCompletion.mk "\x7b\"meta\": 1\x7d" 9))).2
    (RawCompletion.mk "\x7b\"meta\": 1\x7d" 9) rfl rfl
    [("meta", JValue.int 1)] rfl).1

/-- C9: a structured-mode request whose completion text is valid JSON
but not an object is not returned as parsed: the meta assignment raises
inside the handler's `try`, so the caller gets the degraded response
carrying the `TypeError` text with `tokens_used = 0` and
`model = "error"`. -/
theorem C9_nonobject_completion (spConv spTmpl : String) (req : ChatRequest)
    (comp : RawCompletion) (v : JValue)
    (h1 : isStructured req = true)
    (h2 : json_loads comp.text = some v)
    (h3 : v.isObj = false) :
    chat spConv spTmpl req (fun _ => Except.ok comp) =
      JValue.obj [("reply_text", JValue.str ("Error: " ++ setItemMsg v)),
                  ("meta", JValue.obj [("tokens_used", JValue.int 0),
                                       ("model", JValue.str "error")])] := by
  have hv : extract_and_fix_json comp.text = v := by
    simp [extract_and_fix_json, h2]
  cases v with
  | obj fs => simp [JValue.isObj] at h3
  | null => simp [chat, h1, hv, attachMeta, errorResponse]
  | bool b => simp [chat, h1, hv, attachMeta, errorResponse]
  | int n => simp [chat, h1, hv, attachMeta, errorResponse]
  | float fx => simp [chat, h1, hv, attachMeta, errorResponse]
  | str s => simp [chat, h1, hv, attachMeta, errorResponse]
  | arr xs => simp [chat, h1, hv, attachMeta, errorResponse]

/-- Witness for C9 at the completion text `42`. -/
theorem C9_nonobject_completion_witness :
    chat "c" "t" (ChatRequest.mk "s" [] "x" true)
        (fun _ => Except.ok (RawCompletion.mk "42" 5)) =
      JValue.obj [("reply_text",
        JValue.str "Error: \x27int\x27 object does not support item assignment"),
                  ("meta", JValue.obj [("tokens_used", JValue.int 0),
                                       ("model", JValue.str "error")])] :=
  C9_nonobject_completion "c" "t" (ChatRequest.mk "s" [] "x" true)
    (RawCompletion.mk "42" 5) (JValue.int 42) rfl rfl rfl
